import Mathlib

/-!
Shallow embedding of the message-relay server (`src/src/server.ts`, the
variant with the idle-reset lifecycle) and proofs of the specification
claims about it.

The server keeps three insertion-ordered maps (`messageEvents`,
`messageSnapshots`, `messageVersions`), a set of subscriber callbacks
(`receivers`), and a process-wide activity timestamp
(`serverLastAccessed`).  JavaScript `Map`s preserve insertion order and
`Map.set` updates an existing key in place, which is modelled here by
association lists and `mapSet`.  Each HTTP handler is a pure function from
(state, request) to (result, state); the single-threaded event loop makes
every handler atomic, so one function application per request is a
faithful model.  Time (`performance.now()`) is abstracted as a `Nat`
supplied to each handler.
-/

namespace Messages

/-- JSON-compatible values, as parsed by `express.json()` from a request
body.  Numbers are modelled as integers (no claim depends on float
formatting). -/
inductive Json where
  | null : Json
  | bool (b : Bool) : Json
  | num (n : Int) : Json
  | str (s : String) : Json
  | arr (elems : List Json) : Json
  | obj (fields : List (String × Json)) : Json

/-- One hex digit, for `JSON.stringify`'s control-character escapes. -/
def hexDigit (n : Nat) : Char :=
  if n < 10 then Char.ofNat (48 + n) else Char.ofNat (87 + n)

/-- Escaping of one character inside a JSON string literal, as
`JSON.stringify` does it. -/
def jsonEscapeChar (c : Char) : String :=
  if c = '"' then "\\\""
  else if c = '\\' then "\\\\"
  else if c = '\x08' then "\\b"
  else if c = '\x0c' then "\\f"
  else if c = '\n' then "\\n"
  else if c = '\r' then "\\r"
  else if c = '\t' then "\\t"
  else if c.toNat < 32 then
    "\\u00" ++ String.mk [hexDigit (c.toNat / 16), hexDigit (c.toNat % 16)]
  else Char.toString c

/-- Escaping of a whole string for a JSON string literal. -/
def jsonEscape (s : String) : String :=
  String.join (s.data.map jsonEscapeChar)

mutual

/-- `JSON.stringify` on the `Json` model. -/
def Json.stringify : Json → String
  | .null => "null"
  | .bool b => if b then "true" else "false"
  | .num n => toString n
  | .str s => "\"" ++ jsonEscape s ++ "\""
  | .arr xs => "[" ++ String.intercalate "," (Json.stringifyList xs) ++ "]"
  | .obj fs => "\x7b" ++ String.intercalate "," (Json.stringifyFields fs) ++ "\x7d"

/-- Serialization of the elements of a JSON array. -/
def Json.stringifyList : List Json → List String
  | [] => []
  | x :: xs => Json.stringify x :: Json.stringifyList xs

/-- Serialization of the fields of a JSON object. -/
def Json.stringifyFields : List (String × Json) → List String
  | [] => []
  | (k, v) :: fs => ("\"" ++ jsonEscape k ++ "\":" ++ Json.stringify v) :: Json.stringifyFields fs

end

/-- The key pattern `^(\w|-|\.)+$` (`messageKeyRegex.test` in the source):
one or more characters, each a word character (`[A-Za-z0-9_]`), hyphen, or
dot. -/
def messageKeyRegex (key : String) : Bool :=
  !key.isEmpty && key.data.all (fun c => c.isAlphanum || c = '_' || c = '-' || c = '.')

/-- The version pattern `^[1-9][0-9]*$`: a nonzero digit followed by
digits. -/
def versionPattern (version : String) : Bool :=
  match version.data with
  | [] => false
  | c :: cs => ('1' ≤ c && c ≤ '9') && cs.all Char.isDigit

/-- Lookup in an insertion-ordered map (`Map.get`, `undefined` as
`none`). -/
def mapGet? {α : Type} : List (String × α) → String → Option α
  | [], _ => none
  | (k', v) :: rest, k => if k' = k then some v else mapGet? rest k

/-- `Map.set`: update the value in place if the key is present, otherwise
append the new entry, preserving insertion order. -/
def mapSet {α : Type} : List (String × α) → String → α → List (String × α)
  | [], k, v => [(k, v)]
  | (k', v') :: rest, k, v =>
    if k' = k then (k, v) :: rest else (k', v') :: mapSet rest k v

/-- The optional subscription filters after zod validation
(`messageFilterSchema`): `matches'` and `starts-with`, each an optional
non-empty array of key-pattern strings. -/
structure MessageFilters where
  matches' : Option (List String)
  startsWith : Option (List String)
deriving DecidableEq

/-- Validity of one optional filter array under
`z.string().regex(messageKeyRegex).array().nonempty().optional()`. -/
def validFilterArr : Option (List String) → Bool
  | none => true
  | some xs => !xs.isEmpty && xs.all messageKeyRegex

/-- Validity of the whole query under `messageFilterSchema.safeParse`. -/
def validFilters (f : MessageFilters) : Bool :=
  validFilterArr f.matches' && validFilterArr f.startsWith

/-- The key test made inside a subscriber's `receive` closure:
`matches'.has(key) || startsWith.some((sw) => key.startsWith(sw))` when at
least one filter is supplied (`new Set(undefined)` is empty and
`?? []` defaults the prefixes), unconditional acceptance otherwise. -/
def filterAccepts (f : MessageFilters) (key : String) : Bool :=
  if f.matches'.isSome || f.startsWith.isSome then
    (f.matches'.getD []).contains key
      || (f.startsWith.getD []).any (fun sw => key.startsWith sw)
  else true

/-- One open subscription: its filters, the ordered list of frames written
to its sink (`response.write` calls), and whether sink writes throw
(a broken connection). -/
structure Subscriber where
  filter : MessageFilters
  sink : List String
  failing : Bool
deriving DecidableEq

/-- One subscriber's `receive` closure applied to a broadcast frame, with
the `try`/`catch` in `notifyReceivers` around it: the filter is checked
first; if it accepts, the write either appends to the sink or (for a
failing sink) throws and is caught, leaving the subscriber unchanged
either way. -/
def deliverTo (r : Subscriber) (message key : String) : Subscriber :=
  if filterAccepts r.filter key then
    (if r.failing then r else { r with sink := r.sink ++ [message] })
  else r

/-- `notifyReceivers`: every registered receiver is invoked on the new
frame; an exception from one is caught and logged and the iteration
continues, so each subscriber's outcome depends only on itself. -/
def notifyReceivers (rs : List Subscriber) (message key : String) : List Subscriber :=
  rs.map (fun r => deliverTo r message key)

/-- `initializeReceiver`: replay of every stored event frame, in store
insertion order, through the new subscriber's `receive` closure. -/
def initializeReceiver (events : List (String × String)) (sub : Subscriber) : Subscriber :=
  events.foldl (fun r p => deliverTo r p.2 p.1) sub

/-- The whole server state: the three stores, the receiver set, and the
activity timestamp. -/
structure ServerState where
  messageEvents : List (String × String)
  messageSnapshots : List (String × String)
  messageVersions : List (String × Nat)
  receivers : List Subscriber
  serverLastAccessed : Nat
deriving DecidableEq

/-- The state at process start: empty stores, no receivers. -/
def ServerState.init : ServerState :=
  { messageEvents := [], messageSnapshots := [], messageVersions := []
    receivers := [], serverLastAccessed := 0 }

/-- The SSE frame built by the publish handler:
`id: <json of {key, version}>\ndata: <json of data>\n\n`. -/
def messageEventOf (key : String) (version : Nat) (data : Json) : String :=
  "id: " ++ Json.stringify (.obj [("key", .str key), ("version", .num version)])
    ++ "\ndata: " ++ Json.stringify data ++ "\n\n"

/-- The snapshot record built by the publish handler:
`JSON.stringify({id: {key, version}, data})`. -/
def messageSnapshotOf (key : String) (version : Nat) (data : Json) : String :=
  Json.stringify (.obj [("id", .obj [("key", .str key), ("version", .num version)]), ("data", data)])

/-- Outcome of `POST /message/:key/:version`. -/
inductive PublishResult where
  | badKey : PublishResult
  | badVersion : PublishResult
  | wrongContentType : PublishResult
  | versionConflict : PublishResult
  | ok : PublishResult
deriving DecidableEq

/-- The `POST /message/:key/:version` handler.  `contentType` is the
request's `content-type` header (`none` when absent) and `body` the parsed
JSON body (`none` when `request.body` is undefined, so `?? null` applies).
Stored versions never exceed 15 decimal digits, so `String(messageVersion)`
is exact integer formatting, modelled by `toString` on `Nat`. -/
def postMessage (s : ServerState) (now : Nat) (key version : String)
    (contentType : Option String) (body : Option Json) : PublishResult × ServerState :=
  let s := { s with serverLastAccessed := now }
  if messageKeyRegex key = false then (.badKey, s)
  else if versionPattern version = false ∨ 15 < version.length then (.badVersion, s)
  else if contentType ≠ some "application/json" then (.wrongContentType, s)
  else
    let currentVersion := (mapGet? s.messageVersions key).getD 0
    let messageVersion := currentVersion + 1
    if version ≠ toString messageVersion then (.versionConflict, s)
    else
      let messageData := body.getD Json.null
      let messageEvent := messageEventOf key messageVersion messageData
      let messageSnapshot := messageSnapshotOf key messageVersion messageData
      (.ok,
        { s with
          messageEvents := mapSet s.messageEvents key messageEvent
          messageSnapshots := mapSet s.messageSnapshots key messageSnapshot
          messageVersions := mapSet s.messageVersions key messageVersion
          receivers := notifyReceivers s.receivers messageEvent key })

/-- Outcome of `GET /messages`. -/
inductive SubscribeResult where
  | badFilters : SubscribeResult
  | subscribed : SubscribeResult
deriving DecidableEq

/-- The `GET /messages` handler: on valid filters it builds the `receive`
closure, replays the stored events through it (`initializeReceiver`), and
only then adds it to `receivers`. -/
def getMessages (s : ServerState) (now : Nat) (q : MessageFilters) :
    SubscribeResult × ServerState :=
  let s := { s with serverLastAccessed := now }
  if validFilters q = false then (.badFilters, s)
  else
    let sub := initializeReceiver s.messageEvents { filter := q, sink := [], failing := false }
    (.subscribed, { s with receivers := s.receivers ++ [sub] })

/-- Outcome of `GET /messages/snapshot`. -/
inductive SnapshotResult where
  | badFilters : SnapshotResult
  | ok (body : String) : SnapshotResult
deriving DecidableEq

/-- The `GET /messages/snapshot` handler: the stored snapshot strings,
filtered when a filter is supplied, joined as a JSON array literal. -/
def getMessagesSnapshot (s : ServerState) (now : Nat) (q : MessageFilters) :
    SnapshotResult × ServerState :=
  let s := { s with serverLastAccessed := now }
  if validFilters q = false then (.badFilters, s)
  else
    let snapshots :=
      (if q.matches'.isSome || q.startsWith.isSome then
        s.messageSnapshots.filter
          (fun p => (q.matches'.getD []).contains p.1
            || (q.startsWith.getD []).any (fun sw => p.1.startsWith sw))
      else s.messageSnapshots).map (fun p => p.2)
    (.ok ("[" ++ String.intercalate "," snapshots ++ "]"), s)

/-- `clearServerState`: the idle reset wipes the three stores (receivers
and the timestamp are untouched). -/
def clearServerState (s : ServerState) : ServerState :=
  { s with messageEvents := [], messageSnapshots := [], messageVersions := [] }

/-- One firing of the recurring reset timer: clear everything when the
time since the last access exceeds the configured threshold. -/
def resetCheck (s : ServerState) (now resetIntervalMilliseconds : Nat) : ServerState :=
  if now - s.serverLastAccessed > resetIntervalMilliseconds then clearServerState s else s

/-! ## Helper lemmas -/

/-- The state stored by a successful publish, spelled out. -/
def postOkState (s : ServerState) (now : Nat) (key : String) (body : Option Json) : ServerState :=
  { messageEvents :=
      mapSet s.messageEvents key
        (messageEventOf key ((mapGet? s.messageVersions key).getD 0 + 1) (body.getD Json.null))
    messageSnapshots :=
      mapSet s.messageSnapshots key
        (messageSnapshotOf key ((mapGet? s.messageVersions key).getD 0 + 1) (body.getD Json.null))
    messageVersions := mapSet s.messageVersions key ((mapGet? s.messageVersions key).getD 0 + 1)
    receivers :=
      notifyReceivers s.receivers
        (messageEventOf key ((mapGet? s.messageVersions key).getD 0 + 1) (body.getD Json.null)) key
    serverLastAccessed := now }

theorem postMessage_eq (s : ServerState) (now : Nat) (key version : String)
    (ct : Option String) (body : Option Json) :
    postMessage s now key version ct body =
      if messageKeyRegex key = false then (.badKey, { s with serverLastAccessed := now })
      else if versionPattern version = false ∨ 15 < version.length then
        (.badVersion, { s with serverLastAccessed := now })
      else if ct ≠ some "application/json" then
        (.wrongContentType, { s with serverLastAccessed := now })
      else if version ≠ toString ((mapGet? s.messageVersions key).getD 0 + 1) then
        (.versionConflict, { s with serverLastAccessed := now })
      else (.ok, postOkState s now key body) := rfl

theorem mapGet?_mapSet {α : Type} (m : List (String × α)) (k : String) (v : α) (k' : String) :
    mapGet? (mapSet m k v) k' = if k = k' then some v else mapGet? m k' := by
  induction m with
  | nil => simp [mapGet?, mapSet]
  | cons p rest ih =>
    obtain ⟨pk, pv⟩ := p
    by_cases h : pk = k
    · subst h
      simp only [mapSet, if_pos rfl, mapGet?]
      by_cases h2 : pk = k'
      · simp [h2]
      · simp [h2, mapGet?]
    · simp only [mapSet, if_neg h, mapGet?]
      by_cases h2 : pk = k'
      · subst h2
        have hkk : k ≠ pk := fun heq => h heq.symm
        simp [hkk, mapGet?]
      · simp [h2, ih]

/-- Under distinct keys, association-list membership and lookup agree. -/
theorem mem_iff_mapGet? {α : Type} (m : List (String × α)) (k : String) (v : α)
    (hnd : (m.map Prod.fst).Nodup) : (k, v) ∈ m ↔ mapGet? m k = some v := by
  induction m with
  | nil => simp [mapGet?]
  | cons p rest ih =>
    obtain ⟨pk, pv⟩ := p
    simp only [List.map_cons, List.nodup_cons] at hnd
    obtain ⟨hpk, hnd'⟩ := hnd
    by_cases h : pk = k
    · subst h
      constructor
      · intro hmem
        rcases List.mem_cons.mp hmem with heq | hmem'
        · have hv : v = pv := congrArg Prod.snd heq
          simp [mapGet?, hv]
        · exact absurd (List.mem_map_of_mem Prod.fst hmem') hpk
      · intro hget
        simp only [mapGet?] at hget
        simp at hget
        exact List.mem_cons.mpr (Or.inl (by simp [hget]))
    · constructor
      · intro hmem
        rcases List.mem_cons.mp hmem with heq | hmem'
        · exact absurd (congrArg Prod.fst heq).symm h
        · simp only [mapGet?, if_neg h]
          exact (ih hnd').mp hmem'
      · intro hget
        simp only [mapGet?, if_neg h] at hget
        exact List.mem_cons.mpr (Or.inr ((ih hnd').mpr hget))

/-! ## C1 -/

/-- C1 counterexample: a publish with a valid key (`"a"`), a well-formed
declared version (`"2"`) that differs from the key's current version plus
one (which is 1 in the initial state), but a missing `content-type`
header, is rejected with `WrongContentType`, not with `VersionConflict` —
the content-type check precedes the version-conflict check. -/
theorem C1_counterexample :
    messageKeyRegex "a" = true ∧ versionPattern "2" = true ∧ "2".length ≤ 15 ∧
    "2" ≠ toString ((mapGet? ServerState.init.messageVersions "a").getD 0 + 1) ∧
    (postMessage ServerState.init 5 "a" "2" none none).1 = .wrongContentType ∧
    (postMessage ServerState.init 5 "a" "2" none none).1 ≠ .versionConflict := by
  decide

/-- C1 (amended): for every publish request with a valid key, a
well-formed declared version, and a JSON content type, if the declared
version differs from the key's current stored version plus 1 the request
fails with `VersionConflict` (HTTP 409) and the only state change is the
activity-timestamp refresh: the events, snapshots, and versions maps (and
the receiver set) are exactly as they were before the request. -/
theorem C1_publish_version_conflict (s : ServerState) (now : Nat) (key version : String)
    (ct : Option String) (body : Option Json)
    (hk : messageKeyRegex key = true)
    (hv : versionPattern version = true) (hlen : version.length ≤ 15)
    (hct : ct = some "application/json")
    (hne : version ≠ toString ((mapGet? s.messageVersions key).getD 0 + 1)) :
    postMessage s now key version ct body =
      (.versionConflict, { s with serverLastAccessed := now }) := by
  rw [postMessage_eq]
  simp [hk, hv, hct, hne, Nat.not_lt.mpr hlen]

/-- C1 witness: the amended theorem applied at the counterexample-shaped
input with the content type fixed. -/
theorem C1_witness :
    postMessage ServerState.init 5 "a" "2" (some "application/json") none =
      (.versionConflict, { ServerState.init with serverLastAccessed := 5 }) :=
  C1_publish_version_conflict ServerState.init 5 "a" "2" (some "application/json") none
    (by decide) (by decide) (by decide) rfl (by decide)

/-! ## Publish sequences -/

theorem postMessage_ok_versions (s : ServerState) (now : Nat) (key version : String)
    (ct : Option String) (body : Option Json)
    (h : (postMessage s now key version ct body).1 = .ok) :
    mapGet? (postMessage s now key version ct body).2.messageVersions key =
      some ((mapGet? s.messageVersions key).getD 0 + 1) := by
  rw [postMessage_eq] at h ⊢
  split_ifs at h ⊢
  simp_all [postOkState, mapGet?_mapSet]

theorem postMessage_ok_state (s : ServerState) (now : Nat) (key version : String)
    (ct : Option String) (body : Option Json)
    (h : (postMessage s now key version ct body).1 = .ok) :
    (postMessage s now key version ct body).2 = postOkState s now key body := by
  rw [postMessage_eq] at h ⊢
  split_ifs at h ⊢
  simp_all

theorem postMessage_not_ok_state (s : ServerState) (now : Nat) (key version : String)
    (ct : Option String) (body : Option Json)
    (h : (postMessage s now key version ct body).1 ≠ .ok) :
    (postMessage s now key version ct body).2 = { s with serverLastAccessed := now } := by
  rw [postMessage_eq] at h ⊢
  split_ifs at h ⊢ <;> simp_all

/-- One publish request to a fixed key: its arrival time, declared
version, content type, and body. -/
structure PubReq where
  now : Nat
  version : String
  contentType : Option String
  body : Option Json

/-- A sequence of publish requests to one key, returning the final state
and, per request, its result paired with the version stored for the key
right after it. -/
def runPublishes (s : ServerState) (key : String) : List PubReq → ServerState × List (PublishResult × Nat)
  | [] => (s, [])
  | r :: rs =>
    let p := postMessage s r.now key r.version r.contentType r.body
    let rest := runPublishes p.2 key rs
    (rest.1, (p.1, (mapGet? p.2.messageVersions key).getD 0) :: rest.2)

theorem runPublishes_versions (key : String) (reqs : List PubReq) :
    ∀ (s : ServerState),
      (∀ pr ∈ (runPublishes s key reqs).2, pr.1 = PublishResult.ok) →
      (runPublishes s key reqs).2.map (fun pr => pr.2) =
        List.range' ((mapGet? s.messageVersions key).getD 0 + 1) reqs.length := by
  induction reqs with
  | nil => intro s _; simp [runPublishes]
  | cons r rs ih =>
    intro s hall
    simp only [runPublishes, List.map_cons, List.length_cons] at hall ⊢
    have hok : (postMessage s r.now key r.version r.contentType r.body).1 = .ok :=
      hall _ (List.mem_cons_self _ _)
    have hv := postMessage_ok_versions s r.now key r.version r.contentType r.body hok
    have htail : ∀ pr ∈ (runPublishes (postMessage s r.now key r.version r.contentType r.body).2 key rs).2,
        pr.1 = PublishResult.ok :=
      fun pr hm => hall pr (List.mem_cons_of_mem _ hm)
    have hrest := ih (postMessage s r.now key r.version r.contentType r.body).2 htail
    rw [List.range'_succ, hv]
    simp only [Option.getD_some]
    rw [hrest, hv]
    simp [Option.getD_some]

/-- C2: for every key, the sequence of versions stored by consecutive
successful publishes to that key (no intervening reset) is exactly
1, 2, 3, …: starting from a never-published key, after the i-th successful
publish the stored version is i (`List.range' 1 n = [1, …, n]`); moreover
each successful publish stores exactly the key's previous current version
plus 1. -/
theorem C2_versions_sequence (s : ServerState) (key : String) (reqs : List PubReq)
    (h0 : mapGet? s.messageVersions key = none)
    (hall : ∀ pr ∈ (runPublishes s key reqs).2, pr.1 = PublishResult.ok) :
    (runPublishes s key reqs).2.map (fun pr => pr.2) = List.range' 1 reqs.length ∧
    ∀ (t : ServerState) (now : Nat) (version : String) (ct : Option String) (body : Option Json),
      (postMessage t now key version ct body).1 = .ok →
      mapGet? (postMessage t now key version ct body).2.messageVersions key =
        some ((mapGet? t.messageVersions key).getD 0 + 1) := by
  constructor
  · have h := runPublishes_versions key reqs s hall
    rw [h0] at h
    simpa using h
  · exact fun t now version ct body h => postMessage_ok_versions t now key version ct body h

/-- C2 witness: two successful publishes to key `a` store versions
`[1, 2]`. -/
theorem C2_witness :
    (runPublishes ServerState.init "a"
        [⟨0, "1", some "application/json", none⟩, ⟨1, "2", some "application/json", none⟩]).2.map
      (fun pr => pr.2) = List.range' 1 2 :=
  (C2_versions_sequence ServerState.init "a"
      [⟨0, "1", some "application/json", none⟩, ⟨1, "2", some "application/json", none⟩]
      (by decide) (by decide)).1

/-! ## Subscription, replay, and live delivery -/

/-- The frame a successful publish of `body` to `key` in state `s` stores
and broadcasts. -/
def pubEventFrame (s : ServerState) (key : String) (body : Option Json) : String :=
  messageEventOf key ((mapGet? s.messageVersions key).getD 0 + 1) (body.getD Json.null)

theorem deliverTo_not_failing (r : Subscriber) (h : r.failing = false) (m k : String) :
    deliverTo r m k =
      { r with sink := r.sink ++ if filterAccepts r.filter k then [m] else [] } := by
  obtain ⟨f, sk, fl⟩ := r
  simp only at h
  subst h
  unfold deliverTo
  split_ifs <;> simp_all

theorem postMessage_ok_receivers (s : ServerState) (now : Nat) (key version : String)
    (ct : Option String) (body : Option Json)
    (h : (postMessage s now key version ct body).1 = .ok) :
    (postMessage s now key version ct body).2.receivers =
      s.receivers.map (fun r => deliverTo r (pubEventFrame s key body) key) := by
  rw [postMessage_ok_state s now key version ct body h]
  rfl

/-- A publish request with its key: one step of an arbitrary request
sequence. -/
structure Req where
  now : Nat
  key : String
  version : String
  contentType : Option String
  body : Option Json

/-- The state after a sequence of publish requests. -/
def runSeq (s : ServerState) : List Req → ServerState
  | [] => s
  | r :: rs => runSeq (postMessage s r.now r.key r.version r.contentType r.body).2 rs

/-- The (key, frame) pairs broadcast by the accepted publishes of a
request sequence, in acceptance order. -/
def emittedFrames (s : ServerState) : List Req → List (String × String)
  | [] => []
  | r :: rs =>
    let p := postMessage s r.now r.key r.version r.contentType r.body
    (if p.1 = PublishResult.ok then [(r.key, pubEventFrame s r.key r.body)] else []) ++
      emittedFrames p.2 rs

theorem initializeReceiver_sink (events : List (String × String)) :
    ∀ (sub : Subscriber), sub.failing = false →
      initializeReceiver events sub =
        { sub with sink := sub.sink ++
            (events.filter (fun p => filterAccepts sub.filter p.1)).map (fun p => p.2) } := by
  induction events with
  | nil => intro sub _; simp [initializeReceiver]
  | cons e es ih =>
    intro sub h
    have hstep : initializeReceiver (e :: es) sub =
        initializeReceiver es (deliverTo sub e.2 e.1) := rfl
    have hd := deliverTo_not_failing sub h e.2 e.1
    have hf' : (deliverTo sub e.2 e.1).failing = false := by rw [hd]; exact h
    rw [hstep, ih (deliverTo sub e.2 e.1) hf', hd]
    by_cases hacc : filterAccepts sub.filter e.1 <;>
      simp [hacc, List.filter_cons, List.append_assoc]

theorem runSeq_last_subscriber (reqs : List Req) :
    ∀ (t : ServerState) (pre : List Subscriber) (sub : Subscriber),
      sub.failing = false →
      t.receivers = pre ++ [sub] →
      ∃ pre' : List Subscriber,
        (runSeq t reqs).receivers =
          pre' ++ [{ sub with sink := sub.sink ++
            ((emittedFrames t reqs).filter
              (fun e => filterAccepts sub.filter e.1)).map (fun e => e.2) }] ∧
        pre'.length = pre.length := by
  induction reqs with
  | nil =>
    intro t pre sub _ hr
    refine ⟨pre, ?_, rfl⟩
    simpa [runSeq, emittedFrames] using hr
  | cons r rs ih =>
    intro t pre sub hf hr
    have hrun : runSeq t (r :: rs) =
        runSeq (postMessage t r.now r.key r.version r.contentType r.body).2 rs := rfl
    by_cases hok : (postMessage t r.now r.key r.version r.contentType r.body).1 = .ok
    · have hrecv := postMessage_ok_receivers t r.now r.key r.version r.contentType r.body hok
      have hd := deliverTo_not_failing sub hf (pubEventFrame t r.key r.body) r.key
      have hf' : (deliverTo sub (pubEventFrame t r.key r.body) r.key).failing = false := by
        rw [hd]; exact hf
      have hsplit : (postMessage t r.now r.key r.version r.contentType r.body).2.receivers =
          pre.map (fun x => deliverTo x (pubEventFrame t r.key r.body) r.key) ++
            [deliverTo sub (pubEventFrame t r.key r.body) r.key] := by
        rw [hrecv, hr]
        simp
      obtain ⟨pre', hp, hl⟩ :=
        ih (postMessage t r.now r.key r.version r.contentType r.body).2
          (pre.map (fun x => deliverTo x (pubEventFrame t r.key r.body) r.key))
          (deliverTo sub (pubEventFrame t r.key r.body) r.key) hf' hsplit
      refine ⟨pre', ?_, by rw [hl]; simp⟩
      rw [hrun, hp, hd]
      have hem : emittedFrames t (r :: rs) =
          (r.key, pubEventFrame t r.key r.body) ::
            emittedFrames (postMessage t r.now r.key r.version r.contentType r.body).2 rs := by
        simp [emittedFrames, hok]
      rw [hem]
      by_cases hacc : filterAccepts sub.filter r.key <;>
        simp [hacc, List.filter_cons, List.append_assoc]
    · have hst := postMessage_not_ok_state t r.now r.key r.version r.contentType r.body hok
      have hrecv : (postMessage t r.now r.key r.version r.contentType r.body).2.receivers =
          t.receivers := by rw [hst]
      obtain ⟨pre', hp, hl⟩ :=
        ih (postMessage t r.now r.key r.version r.contentType r.body).2 pre sub hf
          (by rw [hrecv, hr])
      refine ⟨pre', ?_, hl⟩
      rw [hrun, hp]
      have hem : emittedFrames t (r :: rs) =
          emittedFrames (postMessage t r.now r.key r.version r.contentType r.body).2 rs := by
        simp [emittedFrames, hok]
      rw [hem]

theorem getMessages_valid (s : ServerState) (now : Nat) (q : MessageFilters)
    (hq : validFilters q = true) :
    getMessages s now q =
      (.subscribed,
        { s with serverLastAccessed := now
                 receivers := s.receivers ++
                   [initializeReceiver s.messageEvents
                     { filter := q, sink := [], failing := false }] }) := by
  unfold getMessages
  simp [hq]

/-- C3: subscribing with valid filters succeeds; the new subscriber's sink
first holds the replay of exactly the stored event frames its filter
accepts, in store insertion order, and after any further publish sequence
it holds that replay followed by exactly the frames of the accepted
publishes its filter accepts, in acceptance order — one delivery per
matching message, no duplicates, no gaps, wherever the subscribe falls in
the publish sequence.  (Registration happens only after replay, so no
frame is both replayed and delivered live.) -/
theorem C3_subscribe_exactly_once (s : ServerState) (now : Nat) (q : MessageFilters)
    (hq : validFilters q = true) (reqs : List Req) :
    (getMessages s now q).1 = .subscribed ∧
    ∃ pre' : List Subscriber,
      (runSeq (getMessages s now q).2 reqs).receivers =
        pre' ++ [{ filter := q
                   sink := (s.messageEvents.filter (fun p => filterAccepts q p.1)).map (fun p => p.2) ++
                     ((emittedFrames (getMessages s now q).2 reqs).filter
                       (fun e => filterAccepts q e.1)).map (fun e => e.2)
                   failing := false }] ∧
      pre'.length = s.receivers.length := by
  have hg := getMessages_valid s now q hq
  have hsub0 : initializeReceiver s.messageEvents { filter := q, sink := [], failing := false } =
      { filter := q
        sink := (s.messageEvents.filter (fun p => filterAccepts q p.1)).map (fun p => p.2)
        failing := false } := by
    rw [initializeReceiver_sink s.messageEvents { filter := q, sink := [], failing := false } rfl]
    simp
  constructor
  · rw [hg]
  · obtain ⟨pre', hp, hl⟩ :=
      runSeq_last_subscriber reqs (getMessages s now q).2 s.receivers
        { filter := q
          sink := (s.messageEvents.filter (fun p => filterAccepts q p.1)).map (fun p => p.2)
          failing := false }
        rfl (by rw [hg, hsub0])
    exact ⟨pre', by rw [hp], hl⟩

/-- C3 witness: subscribing unfiltered on the fresh server, with no
further publishes, registers one subscriber with an empty sink. -/
theorem C3_witness :
    (getMessages ServerState.init 0 { matches' := none, startsWith := none }).1 = .subscribed ∧
    ∃ pre' : List Subscriber,
      (runSeq (getMessages ServerState.init 0 { matches' := none, startsWith := none }).2 []).receivers =
        pre' ++ [{ filter := { matches' := none, startsWith := none }
                   sink := (ServerState.init.messageEvents.filter
                       (fun p => filterAccepts { matches' := none, startsWith := none } p.1)).map (fun p => p.2) ++
                     ((emittedFrames (getMessages ServerState.init 0
                           { matches' := none, startsWith := none }).2 []).filter
                       (fun e => filterAccepts { matches' := none, startsWith := none } e.1)).map (fun e => e.2)
                   failing := false }] ∧
      pre'.length = ServerState.init.receivers.length :=
  C3_subscribe_exactly_once ServerState.init 0 { matches' := none, startsWith := none } (by decide) []

/-! ## Store consistency -/

/-- The store invariant: the three maps have the same key set, and for
every stored key the stored version, event frame, and snapshot come from
one publish of the same data — the version recorded in `messageVersions`
is the one serialized inside both the frame and the snapshot. -/
def storeConsistent (s : ServerState) : Prop :=
  (∀ k, (mapGet? s.messageEvents k).isSome = (mapGet? s.messageVersions k).isSome) ∧
  (∀ k, (mapGet? s.messageSnapshots k).isSome = (mapGet? s.messageVersions k).isSome) ∧
  (∀ k v, mapGet? s.messageVersions k = some v →
    ∃ d, mapGet? s.messageEvents k = some (messageEventOf k v d) ∧
         mapGet? s.messageSnapshots k = some (messageSnapshotOf k v d))

theorem storeConsistent_congr (s t : ServerState)
    (he : t.messageEvents = s.messageEvents) (hs : t.messageSnapshots = s.messageSnapshots)
    (hv : t.messageVersions = s.messageVersions) (h : storeConsistent s) :
    storeConsistent t := by
  unfold storeConsistent at h ⊢
  rw [he, hs, hv]
  exact h

theorem storeConsistent_postMessage (s : ServerState) (h : storeConsistent s)
    (now : Nat) (key version : String) (ct : Option String) (body : Option Json) :
    storeConsistent (postMessage s now key version ct body).2 := by
  obtain ⟨h1, h2, h3⟩ := h
  by_cases hok : (postMessage s now key version ct body).1 = .ok
  · rw [postMessage_ok_state s now key version ct body hok]
    refine ⟨fun k => ?_, fun k => ?_, fun k v hv => ?_⟩
    · by_cases hk : key = k <;> simp [postOkState, mapGet?_mapSet, hk, h1 k]
    · by_cases hk : key = k <;> simp [postOkState, mapGet?_mapSet, hk, h2 k]
    · simp only [postOkState, mapGet?_mapSet] at hv ⊢
      by_cases hk : key = k
      · subst hk
        simp only [if_true, if_pos rfl, Option.some.injEq] at hv ⊢
        subst hv
        exact ⟨body.getD Json.null, rfl, rfl⟩
      · simp only [if_neg hk] at hv ⊢
        exact h3 k v hv
  · rw [postMessage_not_ok_state s now key version ct body hok]
    exact ⟨h1, h2, h3⟩

theorem getMessages_stores (s : ServerState) (now : Nat) (q : MessageFilters) :
    (getMessages s now q).2.messageEvents = s.messageEvents ∧
    (getMessages s now q).2.messageSnapshots = s.messageSnapshots ∧
    (getMessages s now q).2.messageVersions = s.messageVersions := by
  unfold getMessages
  split_ifs <;> exact ⟨rfl, rfl, rfl⟩

theorem getMessagesSnapshot_state (s : ServerState) (now : Nat) (q : MessageFilters) :
    (getMessagesSnapshot s now q).2 = { s with serverLastAccessed := now } := by
  unfold getMessagesSnapshot
  split_ifs <;> rfl

/-- C4: the mutual-consistency invariant of the three store maps holds
initially and is preserved by every operation (publish — successful or
rejected —, subscribe, snapshot read, and the idle-reset check); handlers
are atomic in the single-threaded event loop, so no reader ever observes a
state outside this invariant (no partial update is visible). -/
theorem C4_store_consistency :
    storeConsistent ServerState.init ∧
    ∀ (s : ServerState), storeConsistent s →
      (∀ (now : Nat) (key version : String) (ct : Option String) (body : Option Json),
        storeConsistent (postMessage s now key version ct body).2) ∧
      (∀ (now : Nat) (q : MessageFilters), storeConsistent (getMessages s now q).2) ∧
      (∀ (now : Nat) (q : MessageFilters), storeConsistent (getMessagesSnapshot s now q).2) ∧
      (∀ (now resetMs : Nat), storeConsistent (resetCheck s now resetMs)) := by
  constructor
  · refine ⟨fun k => rfl, fun k => rfl, fun k v hv => ?_⟩
    simp [ServerState.init, mapGet?] at hv
  · intro s h
    refine ⟨fun now key version ct body => storeConsistent_postMessage s h now key version ct body,
      fun now q => ?_, fun now q => ?_, fun now resetMs => ?_⟩
    · obtain ⟨he, hs, hv⟩ := getMessages_stores s now q
      exact storeConsistent_congr s _ he hs hv h
    · rw [getMessagesSnapshot_state s now q]
      exact storeConsistent_congr s _ rfl rfl rfl h
    · unfold resetCheck clearServerState
      split_ifs
      · refine ⟨fun k => rfl, fun k => rfl, fun k v hv => ?_⟩
        simp [mapGet?] at hv
      · exact h

/-- C4 witness: the invariant holds after a concrete successful publish on
the initial state. -/
theorem C4_witness :
    storeConsistent (postMessage ServerState.init 0 "a" "1" (some "application/json") none).2 :=
  (C4_store_consistency.2 ServerState.init C4_store_consistency.1).1 0 "a" "1"
    (some "application/json") none

/-! ## Filter semantics and snapshot reads -/

/-- C5: a subscriber filter accepts a key exactly when the key is a member
of the `matches` set or starts with one of the `starts-with` prefixes; a
filter with neither criterion accepts every key. -/
theorem C5_filter_semantics (f : MessageFilters) (key : String) :
    filterAccepts f key = true ↔
      ((f.matches' = none ∧ f.startsWith = none) ∨
       (∃ m, f.matches' = some m ∧ key ∈ m) ∨
       (∃ ps, f.startsWith = some ps ∧ ∃ p ∈ ps, key.startsWith p = true)) := by
  obtain ⟨om, os⟩ := f
  unfold filterAccepts
  rcases om with _ | m <;> rcases os with _ | ps <;> simp

theorem getMessagesSnapshot_valid (s : ServerState) (now : Nat) (q : MessageFilters)
    (hq : validFilters q = true) :
    getMessagesSnapshot s now q =
      (.ok ("[" ++ String.intercalate ","
          ((s.messageSnapshots.filter (fun p => filterAccepts q p.1)).map (fun p => p.2)) ++ "]"),
        { s with serverLastAccessed := now }) := by
  unfold getMessagesSnapshot
  rw [if_neg (by simp [hq])]
  by_cases hb : (q.matches'.isSome || q.startsWith.isSome) = true
  · rw [if_pos hb]
    have hfl : s.messageSnapshots.filter
        (fun p => (q.matches'.getD []).contains p.1
          || (q.startsWith.getD []).any (fun sw => p.1.startsWith sw)) =
        s.messageSnapshots.filter (fun p => filterAccepts q p.1) := by
      apply List.filter_congr
      intro p _
      simp [filterAccepts, hb]
    rw [hfl]
  · rw [if_neg hb]
    have hfl : s.messageSnapshots.filter (fun p => filterAccepts q p.1) = s.messageSnapshots := by
      apply List.filter_eq_self.mpr
      intro p _
      simp [filterAccepts, hb]
    rw [hfl]

/-- C6: a snapshot request with valid filters answers with the JSON array
of exactly the stored snapshot records of the keys its filter accepts (the
latest record per matching key, since the store holds one record per key),
and its only state change is the activity-timestamp refresh — no
subscriber is registered and the store maps are untouched.  Under the
store's distinct keys, the returned records are, as a set, exactly the
lookups of the accepted keys. -/
theorem C6_snapshot (s : ServerState) (now : Nat) (q : MessageFilters)
    (hq : validFilters q = true)
    (hnd : (s.messageSnapshots.map Prod.fst).Nodup) :
    (getMessagesSnapshot s now q).1 =
      .ok ("[" ++ String.intercalate ","
        ((s.messageSnapshots.filter (fun p => filterAccepts q p.1)).map (fun p => p.2)) ++ "]") ∧
    (getMessagesSnapshot s now q).2 = { s with serverLastAccessed := now } ∧
    (∀ str, str ∈ (s.messageSnapshots.filter (fun p => filterAccepts q p.1)).map (fun p => p.2) ↔
      ∃ k, mapGet? s.messageSnapshots k = some str ∧ filterAccepts q k = true) := by
  refine ⟨by rw [getMessagesSnapshot_valid s now q hq],
    by rw [getMessagesSnapshot_valid s now q hq], fun str => ?_⟩
  constructor
  · intro hmem
    rcases List.mem_map.mp hmem with ⟨p, hpmem, hpeq⟩
    rcases List.mem_filter.mp hpmem with ⟨hmem', hacc⟩
    refine ⟨p.1, ?_, hacc⟩
    rw [← hpeq]
    exact (mem_iff_mapGet? s.messageSnapshots p.1 p.2 hnd).mp hmem'
  · rintro ⟨k, hget, hacc⟩
    have hm := (mem_iff_mapGet? s.messageSnapshots k str hnd).mpr hget
    exact List.mem_map.mpr ⟨(k, str), List.mem_filter.mpr ⟨hm, hacc⟩, rfl⟩

/-- C6 witness: an unfiltered snapshot of the fresh server returns the
empty JSON array and changes only the timestamp. -/
theorem C6_witness :
    (getMessagesSnapshot ServerState.init 3 { matches' := none, startsWith := none }).1 =
      .ok ("[" ++ String.intercalate ","
        ((ServerState.init.messageSnapshots.filter
          (fun p => filterAccepts { matches' := none, startsWith := none } p.1)).map
            (fun p => p.2)) ++ "]") ∧
    (getMessagesSnapshot ServerState.init 3 { matches' := none, startsWith := none }).2 =
      { ServerState.init with serverLastAccessed := 3 } ∧
    (∀ str, str ∈ (ServerState.init.messageSnapshots.filter
        (fun p => filterAccepts { matches' := none, startsWith := none } p.1)).map (fun p => p.2) ↔
      ∃ k, mapGet? ServerState.init.messageSnapshots k = some str ∧
        filterAccepts { matches' := none, startsWith := none } k = true) :=
  C6_snapshot ServerState.init 3 { matches' := none, startsWith := none } (by decide) (by decide)

/-! ## Idle reset, broadcast isolation, validation order, activity -/

/-- C7: when the idle check finds the configured threshold exceeded it
clears all three store maps; a subsequent otherwise-valid publish to any
(previously-used) key succeeds exactly when it declares version `"1"`, and
on success it restarts that key's stored version sequence at 1. -/
theorem C7_reset_restart (s : ServerState) (now nowCheck resetMs : Nat)
    (key version : String) (ct : Option String) (body : Option Json)
    (hfire : nowCheck - s.serverLastAccessed > resetMs)
    (hk : messageKeyRegex key = true)
    (hv : versionPattern version = true) (hlen : version.length ≤ 15)
    (hct : ct = some "application/json") :
    resetCheck s nowCheck resetMs = clearServerState s ∧
    (resetCheck s nowCheck resetMs).messageVersions = [] ∧
    ((postMessage (resetCheck s nowCheck resetMs) now key version ct body).1 = .ok ↔
      version = "1") ∧
    ((postMessage (resetCheck s nowCheck resetMs) now key version ct body).1 = .ok →
      mapGet? (postMessage (resetCheck s nowCheck resetMs) now key version ct
        body).2.messageVersions key = some 1) := by
  have hclear : resetCheck s nowCheck resetMs = clearServerState s := by
    unfold resetCheck
    rw [if_pos hfire]
  have ht : toString (0 + 1 : Nat) = "1" := rfl
  refine ⟨hclear, by rw [hclear]; rfl, ?_, ?_⟩
  · rw [hclear, postMessage_eq]
    have hmg : mapGet? (clearServerState s).messageVersions key = none := rfl
    by_cases h1 : version = "1"
    · subst h1
      simp [hk, hv, hct, Nat.not_lt.mpr hlen, hmg, ht]
    · simp [hk, hv, hct, Nat.not_lt.mpr hlen, hmg, ht, h1]
  · intro hok
    rw [postMessage_ok_versions _ now key version ct body hok, hclear]
    rfl

/-- C7 witness: after a fired reset of a state that had key `a` at
version 5, publishing `a` again succeeds exactly with version `"1"` and
stores version 1. -/
theorem C7_witness :
    resetCheck ⟨[("a", "e")], [("a", "s")], [("a", 5)], [], 0⟩ 100 10 =
      clearServerState ⟨[("a", "e")], [("a", "s")], [("a", 5)], [], 0⟩ ∧
    (resetCheck ⟨[("a", "e")], [("a", "s")], [("a", 5)], [], 0⟩ 100 10).messageVersions = [] ∧
    ((postMessage (resetCheck ⟨[("a", "e")], [("a", "s")], [("a", 5)], [], 0⟩ 100 10) 101 "a" "1"
        (some "application/json") none).1 = .ok ↔ "1" = "1") ∧
    ((postMessage (resetCheck ⟨[("a", "e")], [("a", "s")], [("a", 5)], [], 0⟩ 100 10) 101 "a" "1"
        (some "application/json") none).1 = .ok →
      mapGet? (postMessage (resetCheck ⟨[("a", "e")], [("a", "s")], [("a", 5)], [], 0⟩ 100 10) 101
        "a" "1" (some "application/json") none).2.messageVersions "a" = some 1) :=
  C7_reset_restart ⟨[("a", "e")], [("a", "s")], [("a", 5)], [], 0⟩ 101 100 10 "a" "1"
    (some "application/json") none (by decide) (by decide) (by decide) (by decide) rfl

/-- C8: during broadcast of an accepted publish every registered
subscriber's delivery is computed from that subscriber alone
(`deliverTo`), so a sink-write error in one subscriber — caught by the
`try`/`catch` in `notifyReceivers`, leaving that subscriber unchanged —
cannot prevent delivery to any other subscriber; and the publish result is
entirely independent of the receiver set, so no delivery error propagates
to the publisher. -/
theorem C8_broadcast_isolation (s : ServerState) (now : Nat) (key version : String)
    (ct : Option String) (body : Option Json) :
    ((postMessage s now key version ct body).1 = .ok →
      (postMessage s now key version ct body).2.receivers =
        s.receivers.map (fun r => deliverTo r (pubEventFrame s key body) key)) ∧
    (∀ rs' : List Subscriber,
      (postMessage { s with receivers := rs' } now key version ct body).1 =
        (postMessage s now key version ct body).1) ∧
    (∀ (r : Subscriber) (m k : String), r.failing = true → deliverTo r m k = r) := by
  refine ⟨postMessage_ok_receivers s now key version ct body, fun rs' => ?_, fun r m k hf => ?_⟩
  · rw [postMessage_eq, postMessage_eq]
    dsimp only
    split_ifs <;> rfl
  · unfold deliverTo
    split_ifs <;> simp_all

/-- C8 witness: with one failing and one healthy unfiltered subscriber, a
successful publish still maps every subscriber through its own delivery. -/
theorem C8_witness :
    (postMessage ⟨[], [], [], [⟨⟨none, none⟩, [], true⟩, ⟨⟨none, none⟩, [], false⟩], 0⟩ 0 "a" "1"
        (some "application/json") none).2.receivers =
      [⟨⟨none, none⟩, [], true⟩, ⟨⟨none, none⟩, [], false⟩].map
        (fun r => deliverTo r
          (pubEventFrame ⟨[], [], [], [⟨⟨none, none⟩, [], true⟩, ⟨⟨none, none⟩, [], false⟩], 0⟩
            "a" none) "a") :=
  (C8_broadcast_isolation ⟨[], [], [], [⟨⟨none, none⟩, [], true⟩, ⟨⟨none, none⟩, [], false⟩], 0⟩
      0 "a" "1" (some "application/json") none).1 (by decide)

/-- C9: the publish handler's rejections happen in a fixed order with
exact conditions — `BadKey` iff the key fails the key pattern; otherwise
`BadVersion` iff the declared version fails `^[1-9][0-9]*$` or is longer
than 15 characters; otherwise `WrongContentType` iff the content type is
not `application/json`; and when all three validations pass the outcome is
the version-conflict check (conflict or success). -/
theorem C9_validation_order (s : ServerState) (now : Nat) (key version : String)
    (ct : Option String) (body : Option Json) :
    ((postMessage s now key version ct body).1 = .badKey ↔ messageKeyRegex key = false) ∧
    ((postMessage s now key version ct body).1 = .badVersion ↔
      (messageKeyRegex key = true ∧ (versionPattern version = false ∨ 15 < version.length))) ∧
    ((postMessage s now key version ct body).1 = .wrongContentType ↔
      (messageKeyRegex key = true ∧ versionPattern version = true ∧ version.length ≤ 15 ∧
        ct ≠ some "application/json")) ∧
    ((messageKeyRegex key = true ∧ versionPattern version = true ∧ version.length ≤ 15 ∧
        ct = some "application/json") →
      ((postMessage s now key version ct body).1 = .versionConflict ∨
        (postMessage s now key version ct body).1 = .ok)) := by
  rw [postMessage_eq]
  by_cases h1 : messageKeyRegex key = false
  · simp [h1]
  · have h1' : messageKeyRegex key = true := by
      cases hmk : messageKeyRegex key
      · exact absurd hmk h1
      · rfl
    rw [if_neg h1]
    by_cases h2 : versionPattern version = false ∨ 15 < version.length
    · rw [if_pos h2]
      rcases h2 with h2a | h2b
      · simp [h1, h1', h2a]
      · simp [h1, h1', h2b, not_le.mpr h2b]
    · rw [if_neg h2]
      push_neg at h2
      obtain ⟨h2a, h2b⟩ := h2
      have h2a' : versionPattern version = true := by
        cases hvp : versionPattern version
        · exact absurd hvp h2a
        · rfl
      have h2b' : version.length ≤ 15 := h2b
      by_cases h3 : ct ≠ some "application/json"
      · rw [if_pos h3]
        simp [h1, h1', h2a', h2b', h2b, h3]
      · rw [if_neg h3]
        push_neg at h3
        by_cases h4 : version ≠ toString ((mapGet? s.messageVersions key).getD 0 + 1)
        · rw [if_pos h4]
          simp [h1, h1', h2a', h2b, h3]
        · rw [if_neg h4]
          simp [h1, h1', h2a', h2b, h3]

/-- C9 witness: a key with a character outside the allowed charset is
rejected as `BadKey`. -/
theorem C9_witness : (postMessage ServerState.init 0 "a?" "1" none none).1 = .badKey :=
  (C9_validation_order ServerState.init 0 "a?" "1" none none).1.mpr (by decide)

/-- C10: every publish, subscribe, and snapshot request sets the activity
timestamp to its arrival time at handler entry, before any validation;
hence a rejected request (BadKey, BadVersion, WrongContentType,
VersionConflict, or BadFilters) still changes nothing but that timestamp —
the store maps and the subscriber set are untouched — and it postpones the
idle reset: a later check within the threshold of the rejected request
does not clear the store. -/
theorem C10_activity_refresh (s : ServerState) (now : Nat) (key version : String)
    (ct : Option String) (body : Option Json) (q : MessageFilters) :
    (postMessage s now key version ct body).2.serverLastAccessed = now ∧
    (getMessages s now q).2.serverLastAccessed = now ∧
    (getMessagesSnapshot s now q).2.serverLastAccessed = now ∧
    ((postMessage s now key version ct body).1 ≠ .ok →
      (postMessage s now key version ct body).2 = { s with serverLastAccessed := now }) ∧
    ((getMessages s now q).1 = .badFilters →
      (getMessages s now q).2 = { s with serverLastAccessed := now }) ∧
    (getMessagesSnapshot s now q).2 = { s with serverLastAccessed := now } ∧
    (∀ (now2 resetMs : Nat), ¬ now2 - now > resetMs →
      resetCheck (postMessage s now key version ct body).2 now2 resetMs =
        (postMessage s now key version ct body).2) := by
  have hts : (postMessage s now key version ct body).2.serverLastAccessed = now := by
    rw [postMessage_eq]
    split_ifs <;> rfl
  refine ⟨hts, ?_, ?_, postMessage_not_ok_state s now key version ct body, ?_,
    getMessagesSnapshot_state s now q, ?_⟩
  · unfold getMessages
    split_ifs <;> rfl
  · rw [getMessagesSnapshot_state s now q]
  · intro hbad
    unfold getMessages at hbad ⊢
    split_ifs at hbad ⊢
    rfl
  · intro now2 resetMs hle
    unfold resetCheck
    rw [hts]
    exact if_neg hle

/-- C10 witness: a publish rejected for a bad key leaves everything but
the timestamp unchanged, and a reset check within the threshold after it
does not clear the store. -/
theorem C10_witness :
    (postMessage ServerState.init 7 "" "1" none none).2 =
      { ServerState.init with serverLastAccessed := 7 } ∧
    resetCheck (postMessage ServerState.init 7 "" "1" none none).2 8 5 =
      (postMessage ServerState.init 7 "" "1" none none).2 :=
  ⟨(C10_activity_refresh ServerState.init 7 "" "1" none none ⟨none, none⟩).2.2.2.1 (by decide),
    (C10_activity_refresh ServerState.init 7 "" "1" none none
      ⟨none, none⟩).2.2.2.2.2.2 8 5 (by decide)⟩

end Messages
